import Mathlib

/- Verification of the RN2483 LoRaWAN driver (src/rn2483.py).

   The file shallowly embeds the driver: the line framing done by send, the
   provisioning and OTAA-join state machine lora_setup, and the confirmed-
   uplink transmit loop of main.  The device side of the serial link is
   modelled by oracles giving the raw text line produced for each read, and
   the unbounded blocking loops of the source are totalized with an explicit
   fuel parameter. -/

set_option maxRecDepth 4000

/-- ASCII whitespace as recognized by the Python strip and rstrip used on the
(ASCII) protocol strings of this driver. -/
def pyIsSpace (c : Char) : Bool :=
  c = ' ' || c = '\t' || c = '\n' || c = '\r' || c = '\x0b' || c = '\x0c'

/-- Drop trailing whitespace of a character list. -/
def rstripList (l : List Char) : List Char :=
  (l.reverse.dropWhile pyIsSpace).reverse

/-- Python data.rstrip(): drop trailing whitespace. -/
def pyRstrip (s : String) : String := ⟨rstripList s.data⟩

/-- Python data.strip(): drop leading and trailing whitespace. -/
def pyStrip (s : String) : String := ⟨(rstripList s.data).dropWhile pyIsSpace⟩

/-- Whether the first list is an initial segment of the second. -/
def listStarts : List Char → List Char → Bool
  | [], _ => true
  | _ :: _, [] => false
  | a :: as, b :: bs => a = b && listStarts as bs

/-- Python substring test: needle in hay. -/
def listHas (needle : List Char) : List Char → Bool
  | [] => needle.isEmpty
  | c :: cs => listStarts needle (c :: cs) || listHas needle cs

/-- Python substring containment, needle in hay. -/
def pyIn (needle hay : String) : Bool := listHas needle.data hay.data

/-- Python s.split(sep) for a one-character separator: fields between
occurrences of the separator, empty fields kept, never an empty list. -/
def splitChar (sep : Char) : List Char → List (List Char)
  | [] => [[]]
  | c :: cs =>
    if c = sep then [] :: splitChar sep cs
    else
      match splitChar sep cs with
      | [] => [[c]]
      | t :: ts => (c :: t) :: ts

/-- Python s.split(" "): fields separated by single spaces, empties kept. -/
def pySplitSpace (s : String) : List String :=
  (splitChar ' ' s.data).map (fun l => ⟨l⟩)

/-- Python s.split(" ")[-1]: the last field (split always yields a non-empty
list, so index -1 is the last element; the default is never used). -/
def lastToken (s : String) : String := (pySplitSpace s).getLastD ""

/-- Module constant APPKEY (line 18 of the source). -/
def APPKEY : String := "0123456789ABCDEF0123456789ABCDEF"

/-- Module constant JOINEUI (line 19). -/
def JOINEUI : String := "DEAD25DEAD25DEAD"

/-- Module constant DEVEUI (line 20). -/
def DEVEUI : String := "DEADDEAD00090002"

/-- Module constant SPREADING_FACTOR (line 28). -/
def SPREADING_FACTOR : Int := 7

/-- The bytes that send writes for a command (line 96):
(data.rstrip() + CR LF).encode(). -/
def sendWire (data : String) : String := pyRstrip data ++ "\r\n"

/-- data_rate = abs(spreading_factor - 12) computed by lora_setup
(line 137). -/
def data_rate (sf : Int) : Int := ((sf - 12).natAbs : Int)

/-- The channel configuration commands: for channel in range(0,3), set the
duty cycle then set the channel status to on (lines 173-181). -/
def chanCmds : List String :=
  (List.range 3).flatMap (fun ch =>
    ["mac set ch dcycle " ++ toString ch ++ " 1",
     "mac set ch status " ++ toString ch ++ " on"])

/-- Every command lora_setup issues before entering the join loop
(lines 144-185), in order. -/
def preJoinCmds (sf : Int) : List String :=
  ["sys reset",
   "mac set appkey " ++ APPKEY,
   "mac set appeui " ++ JOINEUI,
   "mac set deveui " ++ DEVEUI,
   "mac set dr " ++ toString (data_rate sf)]
  ++ chanCmds ++ ["mac save"]

/-- Observable protocol events of one lora_setup run: a command written with
the (stripped) response read for it, a sleep of a number of seconds, and a
blocking read of an unsolicited raw line. -/
inductive Ev where
  | cmd (c : String) (resp : String)
  | pause (secs : Nat)
  | line (raw : String)
deriving DecidableEq

/-- Device-side inputs consumed by one lora_setup run: the raw response line
to the i-th pre-join command, the raw response line to each join attempt
(consumed in order, index 0 first), and the eventual non-empty unsolicited
line obtained while awaiting the join acceptance. -/
structure LoraDev where
  setupResps : Nat → String
  joinResps : Nat → String
  acceptRaw : String

/-- The command/response events of the provisioning part of lora_setup:
each command of preJoinCmds paired with the stripped response send returns
for it. -/
def preEvents (d : LoraDev) (sf : Int) : List Ev :=
  (preJoinCmds sf).enum.map (fun p => Ev.cmd p.2 (pyStrip (d.setupResps p.1)))

/-- The join loop of lora_setup (lines 187-194): send mac join otaa, sleep
2 s, and repeat until a response contains ok.  The source loop is unbounded;
fuel totalizes it, and the response oracle is shifted by one on each retry so
that attempt j reads resps j. -/
def joinLoop (resps : Nat → String) : Nat → Option (List Ev)
  | 0 => none
  | fuel + 1 =>
    let r := pyStrip (resps 0)
    if pyIn "ok" r then some [Ev.cmd "mac join otaa" r, Ev.pause 2]
    else
      match joinLoop (fun i => resps (i + 1)) fuel with
      | none => none
      | some evs => some (Ev.cmd "mac join otaa" r :: Ev.pause 2 :: evs)

/-- lora_setup (lines 110-205): issue the provisioning commands, run the join
loop, sleep 2 s, block until a non-empty unsolicited line arrives, and return
True iff that line, stripped, equals accepted exactly. -/
def lora_setup (d : LoraDev) (sf : Int) (fuel : Nat) : Option (List Ev × Bool) :=
  match joinLoop d.joinResps fuel with
  | none => none
  | some jevs =>
    some (preEvents d sf ++ jevs ++ [Ev.pause 2, Ev.line d.acceptRaw],
          pyStrip d.acceptRaw == "accepted")

/-- Attempt k is the first join attempt whose (stripped) response contains
ok. -/
def firstOkAt (resps : Nat → String) (k : Nat) : Bool :=
  ((List.range k).all (fun i => !(pyIn "ok" (pyStrip (resps i))))) &&
    pyIn "ok" (pyStrip (resps k))

/-- The events of join attempts 0..k: each join command with its stripped
response, followed by the 2 s pause. -/
def joinAttemptEvs (resps : Nat → String) (k : Nat) : List Ev :=
  (List.range (k + 1)).flatMap
    (fun i => [Ev.cmd "mac join otaa" (pyStrip (resps i)), Ev.pause 2])

/-- The commands written during a list of events, in order. -/
def cmdsOf (evs : List Ev) : List String :=
  evs.filterMap (fun e =>
    match e with
    | Ev.cmd c _ => some c
    | _ => none)

/-- The poll loop for the follow-up line after an acknowledged uplink
(lines 259-264): read once, then while the read is empty and tries < 5,
sleep 1 s and read again.  reads n is the raw result of the n-th readline
call of this poll phase (none = empty read); rem stands for 5 - tries. -/
def pollGo (reads : Nat → Option String) :
    Option String → Nat → Nat → Option String × Nat
  | some s, tries, _ => (some s, tries)
  | none, tries, 0 => (none, tries)
  | none, tries, rem + 1 => pollGo reads (reads (tries + 1)) (tries + 1) rem

/-- The whole poll phase: the line obtained (if any) and the number of
iterations the retry loop ran. -/
def pollLoop (reads : Nat → Option String) : Option String × Nat :=
  pollGo reads (reads 0) 0 5

/-- Outcome of one iteration of the inner transmit loop (lines 243-276). -/
inductive StepOutcome where
  | sendFailed
  | noResponse
  | noDownlink (decoded : String)
  | downlink (decoded : String) (payload : String)
deriving DecidableEq

/-- One iteration of the inner transmit loop of main (lines 243-276), given
the raw response line to the uplink command and the readline oracle of the
poll phase: if the stripped response lacks ok the send failed; else if no
follow-up line arrives within the poll phase there is no response; else the
line is stripped and, when it contains mac_rx, the payload
decoded_response.split(" ")[-1] is extracted, otherwise it is discarded. -/
def innerStep (resp : String) (reads : Nat → Option String) : StepOutcome :=
  if pyIn "ok" (pyStrip resp) = false then StepOutcome.sendFailed
  else
    match (pollLoop reads).1 with
    | none => StepOutcome.noResponse
    | some raw =>
      if pyIn "mac_rx" (pyStrip raw) = false then
        StepOutcome.noDownlink (pyStrip raw)
      else StepOutcome.downlink (pyStrip raw) (lastToken (pyStrip raw))

/-- How much an iteration adds to error_counts (lines 251 and 266): 1 on a
failed send or a missing follow-up line, 0 otherwise. -/
def errDelta : StepOutcome → Nat
  | StepOutcome.sendFailed => 1
  | StepOutcome.noResponse => 1
  | StepOutcome.noDownlink _ => 0
  | StepOutcome.downlink _ _ => 0

/-- error_counts after n iterations of one inner transmit-loop session, for
the per-iteration device inputs dev (uplink response and poll oracle of each
iteration): starts at 0 (line 242) and adds errDelta each iteration. -/
def ecSeq (dev : Nat → String × (Nat → Option String)) : Nat → Nat
  | 0 => 0
  | n + 1 => ecSeq dev n + errDelta (innerStep (dev n).1 (dev n).2)

/-- Control state of main's nested loops: running the join machine, or inside
the inner transmit loop with the current error_counts. -/
inductive MPhase where
  | Joining
  | Transmit (ec : Nat)
deriving DecidableEq

/-- Device behavior seen by main, per global step t: whether the lora_setup
run started at t succeeds, the raw uplink response of an iteration run at t,
and its poll-phase readline oracle. -/
structure MainDev where
  joinOk : Nat → Bool
  resp : Nat → String
  reads : Nat → Nat → Option String

/-- One step of main's loop structure (lines 233-276): while joining, a
failed lora_setup retries (after the 3 s backoff) and a successful one enters
the inner loop with error_counts = 0 (line 242); inside the inner loop, an
iteration runs while error_counts <= 5 (line 243) and otherwise control
falls back to the outer loop, i.e. to the join machine. -/
def mainStep (d : MainDev) (t : Nat) : MPhase → MPhase
  | MPhase.Joining => if d.joinOk t then MPhase.Transmit 0 else MPhase.Joining
  | MPhase.Transmit ec =>
    if ec ≤ 5 then
      MPhase.Transmit (ec + errDelta (innerStep (d.resp t) (d.reads t)))
    else MPhase.Joining

/-- The control state of main after t steps; main starts by joining. -/
def mainRun (d : MainDev) : Nat → MPhase
  | 0 => MPhase.Joining
  | t + 1 => mainStep d t (mainRun d t)

/-- The per-iteration device inputs of the transmit session entered right
after a join that succeeded at global step t0. -/
def sessionDev (d : MainDev) (t0 : Nat) : Nat → String × (Nat → Option String) :=
  fun i => (d.resp (t0 + 1 + i), d.reads (t0 + 1 + i))

/-- The two ways main can return (transport failure at startup, lines
219-223, or a KeyboardInterrupt, lines 277-280). -/
inductive MainExit where
  | transportFail
  | interrupted
deriving DecidableEq

/-- The value returned by main(): 1 when setup_serial raises (line 223) and
0 when a KeyboardInterrupt ends the program (line 280). -/
def mainReturn : MainExit → Nat
  | MainExit.transportFail => 1
  | MainExit.interrupted => 0

/-- The exit status of the process: the module-level block (lines 283-285)
calls main() and discards its return value, and the script then falls off
its end without calling sys.exit, so the interpreter exits with status 0 in
both cases. -/
def scriptExitCode (e : MainExit) : Nat :=
  let _ := mainReturn e
  0

/-- Modelled from the spec: the last whitespace-delimited token of a line,
tokens being the maximal runs of non-whitespace characters (the wording of
spec sections 4.3 and 8 for the downlink payload).  Defined only to compare
the spec wording against the extraction the code performs; acc accumulates
the current token reversed. -/
def wsTokensAux : List Char → List Char → List (List Char)
  | acc, [] => if acc.isEmpty then [] else [acc.reverse]
  | acc, c :: cs =>
    if pyIsSpace c then
      if acc.isEmpty then wsTokensAux [] cs else acc.reverse :: wsTokensAux [] cs
    else wsTokensAux (c :: acc) cs

/-- Modelled from the spec: the last whitespace-delimited token of s. -/
def lastWsToken (s : String) : String := ⟨(wsTokensAux [] s.data).getLastD []⟩

/-- Whether every character of s is whitespace. -/
def allWs (s : String) : Bool := s.data.all pyIsSpace

/-- Whether s does not end in a whitespace character. -/
def endsNoWs (s : String) : Bool :=
  match s.data.getLast? with
  | none => true
  | some c => !pyIsSpace c

/-- A device on which every command is answered ok and the join is accepted
at once. -/
def devOk : LoraDev := ⟨fun _ => "ok", fun _ => "ok", "accepted"⟩

/-- A main-loop device: joins always succeed, uplinks are acknowledged, and
no follow-up line ever arrives. -/
def dC : MainDev := ⟨fun _ => true, fun _ => "ok", fun _ _ => none⟩

/-- Session inputs on which every uplink is acknowledged but no follow-up
line ever arrives. -/
def devS : Nat → String × (Nat → Option String) := fun _ => ("ok", fun _ => none)

/-- A poll oracle on which every read is empty. -/
def readsNone : Nat → Option String := fun _ => none

/-- A poll oracle whose first read already yields a downlink line. -/
def readsRx : Nat → Option String := fun _ => some "mac_rx 1 a1b2c3"

/-- A downlink line whose fields are separated by tabs instead of spaces. -/
def tabLine : String := "mac_rx\t1\ta1b2c3"

/-- A poll oracle whose first read yields the tab-separated downlink line. -/
def readsTab : Nat → Option String := fun _ => some tabLine

/- ------------------------------------------------------------------ -/
/- Helper lemmas                                                      -/
/- ------------------------------------------------------------------ -/

theorem dropWhile_head_not (p : Char → Bool) (l : List Char) :
    ∀ c, (l.dropWhile p).head? = some c → p c = false := by
  induction l with
  | nil => intro c h; simp [List.dropWhile] at h
  | cons a l ih =>
    intro c h
    by_cases ha : p a
    · rw [List.dropWhile_cons_of_pos ha] at h
      exact ih c h
    · rw [List.dropWhile_cons_of_neg ha] at h
      simp at h
      rw [← h]
      exact Bool.of_not_eq_true ha

theorem dropWhile_append_all (p : Char → Bool) (l1 l2 : List Char)
    (h : ∀ c ∈ l1, p c = true) :
    (l1 ++ l2).dropWhile p = l2.dropWhile p := by
  induction l1 with
  | nil => simp
  | cons a l ih =>
    have ha : p a = true := h a (List.mem_cons_self a l)
    simp only [List.cons_append, List.dropWhile_cons_of_pos ha]
    exact ih (fun c hc => h c (List.mem_cons_of_mem a hc))

theorem data_append (s t : String) : (s ++ t).data = s.data ++ t.data := rfl

theorem errDelta_le_one (o : StepOutcome) : errDelta o ≤ 1 := by
  cases o <;> simp [errDelta]

/- ------------------------------------------------------------------ -/
/- Claim theorems                                                     -/
/- ------------------------------------------------------------------ -/

/-- C3: for every input command string, send writes the command with all
trailing whitespace removed followed by exactly one CR LF line terminator:
what precedes the terminator never ends in whitespace (so in particular not
in a terminator character, and double-termination never occurs), and any
trailing whitespace or terminator already present on the input leaves the
written bytes unchanged. -/
theorem claim_C3 (data : String) :
    sendWire data = pyRstrip data ++ "\r\n"
    ∧ endsNoWs (pyRstrip data) = true
    ∧ (∀ ws : String, allWs ws = true → sendWire (data ++ ws) = sendWire data) := by
  refine ⟨rfl, ?_, ?_⟩
  · unfold endsNoWs pyRstrip rstripList
    rcases hh : ((String.data data).reverse.dropWhile pyIsSpace).head? with _ | c
    · simp [List.getLast?_reverse, hh]
    · simp only [List.getLast?_reverse, hh]
      simp [dropWhile_head_not pyIsSpace _ c hh]
  · intro ws hws
    unfold sendWire pyRstrip rstripList
    have hdata : (data ++ ws).data = data.data ++ ws.data := data_append data ws
    rw [hdata, List.reverse_append]
    rw [dropWhile_append_all pyIsSpace ws.data.reverse data.data.reverse]
    intro c hc
    rw [List.mem_reverse] at hc
    unfold allWs at hws
    exact List.all_eq_true.mp hws c hc

/-- C3 witness: a command already carrying a CR LF terminator is written the
same as the bare command, with a single terminator. -/
theorem claim_C3_witness :
    allWs "\r\n" = true ∧ sendWire ("mac save" ++ "\r\n") = sendWire "mac save" :=
  ⟨by decide, (claim_C3 "mac save").2.2 "\r\n" (by decide)⟩

/-- C4: for every spreading factor between 7 and 12 the data-rate index
computed by lora_setup equals the absolute difference with 12 and lies
between 0 and 5; SF 7 gives index 5 and SF 12 gives index 0. -/
theorem claim_C4 :
    (∀ sf : Int, 7 ≤ sf → sf ≤ 12 →
      (data_rate sf = |sf - 12| ∧ 0 ≤ data_rate sf ∧ data_rate sf ≤ 5))
    ∧ data_rate 7 = 5 ∧ data_rate 12 = 0 := by
  refine ⟨?_, by decide, by decide⟩
  intro sf h7 h12
  have habs : |sf - 12| = -(sf - 12) := abs_of_nonpos (by omega)
  rw [habs]
  unfold data_rate
  omega

/-- C4 witness: instantiated at spreading factor 7. -/
theorem claim_C4_witness :
    (7 : Int) ≤ 7 ∧ (7 : Int) ≤ 12 ∧
      (data_rate 7 = |(7 : Int) - 12| ∧ 0 ≤ data_rate 7 ∧ data_rate 7 ≤ 5) :=
  ⟨by decide, by decide, claim_C4.1 7 (by decide) (by decide)⟩

/-- C8: the claim says the process exits with code 1 when the serial
connection cannot be established, but although main() returns 1 on that path
(line 223), the module-level block (lines 283-285) calls main() and discards
its return value without sys.exit, so the interpreter exits with status 0 in
every case; the interrupt half of the claim (exit 0) does hold. -/
theorem claim_C8 :
    mainReturn MainExit.transportFail = 1
    ∧ scriptExitCode MainExit.transportFail = 0
    ∧ mainReturn MainExit.interrupted = 0
    ∧ scriptExitCode MainExit.interrupted = 0 :=
  ⟨rfl, rfl, rfl, rfl⟩

theorem flatMap_range_succ {α : Type} (f : Nat → List α) (k : Nat) :
    (List.range (k + 1)).flatMap f
      = f 0 ++ (List.range k).flatMap (fun i => f (i + 1)) := by
  rw [List.range_succ_eq_map]
  simp [List.flatMap_map, Function.comp]

theorem firstOkAt_iff (resps : Nat → String) (k : Nat) :
    firstOkAt resps k = true ↔
      ((∀ i, i < k → pyIn "ok" (pyStrip (resps i)) = false)
        ∧ pyIn "ok" (pyStrip (resps k)) = true) := by
  unfold firstOkAt
  simp [List.all_eq_true, List.mem_range, Bool.not_eq_true']

theorem joinAttemptEvs_succ (resps : Nat → String) (k : Nat) :
    joinAttemptEvs resps (k + 1)
      = Ev.cmd "mac join otaa" (pyStrip (resps 0)) :: Ev.pause 2 ::
          joinAttemptEvs (fun i => resps (i + 1)) k := by
  unfold joinAttemptEvs
  rw [flatMap_range_succ]
  rfl

theorem joinLoop_spec :
    ∀ (k : Nat) (resps : Nat → String) (fuel : Nat),
      (∀ i, i < k → pyIn "ok" (pyStrip (resps i)) = false) →
      pyIn "ok" (pyStrip (resps k)) = true →
      k < fuel →
      joinLoop resps fuel = some (joinAttemptEvs resps k) := by
  intro k
  induction k with
  | zero =>
    intro resps fuel h0 hk hf
    cases fuel with
    | zero => omega
    | succ f =>
      simp only [joinLoop, hk, if_true]
      unfold joinAttemptEvs
      rw [flatMap_range_succ]
      rfl
  | succ k ih =>
    intro resps fuel h0 hk hf
    cases fuel with
    | zero => omega
    | succ f =>
      have h00 : pyIn "ok" (pyStrip (resps 0)) = false := h0 0 (Nat.succ_pos k)
      have hrec := ih (fun i => resps (i + 1)) f
        (fun i hi => h0 (i + 1) (by omega)) hk (by omega)
      simp only [joinLoop, h00, Bool.false_eq_true, if_false]
      rw [hrec]
      show some (Ev.cmd "mac join otaa" (pyStrip (resps 0)) :: Ev.pause 2 ::
            joinAttemptEvs (fun i => resps (i + 1)) k)
          = some (joinAttemptEvs resps (k + 1))
      rw [joinAttemptEvs_succ]

/-- C2: the join machine repeatedly sends mac join otaa with a 2 s pause
after each attempt until some (stripped) response contains ok — attempts
0..k happen exactly when attempt k is the first one answered with ok — and
it then reports success (returns True) if and only if the subsequent
unsolicited non-empty line, stripped of whitespace, equals accepted exactly
(Boolean equality of strings, not substring containment). -/
theorem claim_C2 (d : LoraDev) (sf : Int) (fuel k : Nat)
    (h1 : firstOkAt d.joinResps k = true) (h2 : k < fuel) :
    lora_setup d sf fuel =
      some (preEvents d sf ++ joinAttemptEvs d.joinResps k ++
              [Ev.pause 2, Ev.line d.acceptRaw],
            pyStrip d.acceptRaw == "accepted")
    ∧ ((pyStrip d.acceptRaw == "accepted") = true ↔ pyStrip d.acceptRaw = "accepted") := by
  obtain ⟨hall, hk⟩ := (firstOkAt_iff d.joinResps k).mp h1
  constructor
  · unfold lora_setup
    rw [joinLoop_spec k d.joinResps fuel hall hk h2]
  · simp

/-- C2 witness: on a device whose first join attempt is answered ok and
whose unsolicited line is accepted, one unit of fuel suffices. -/
theorem claim_C2_witness :
    firstOkAt devOk.joinResps 0 = true ∧ 0 < 1 ∧
      (lora_setup devOk 7 1 =
        some (preEvents devOk 7 ++ joinAttemptEvs devOk.joinResps 0 ++
                [Ev.pause 2, Ev.line devOk.acceptRaw],
              pyStrip devOk.acceptRaw == "accepted")
       ∧ ((pyStrip devOk.acceptRaw == "accepted") = true
            ↔ pyStrip devOk.acceptRaw = "accepted")) :=
  ⟨by decide, by decide, claim_C2 devOk 7 1 0 (by decide) (by decide)⟩

theorem cmdsOf_append (l1 l2 : List Ev) :
    cmdsOf (l1 ++ l2) = cmdsOf l1 ++ cmdsOf l2 := by
  simp [cmdsOf, List.filterMap_append]

theorem cmdsOf_enum (l : List String) (g : Nat × String → String) :
    cmdsOf (l.enum.map (fun p => Ev.cmd p.2 (g p))) = l := by
  unfold cmdsOf
  rw [List.filterMap_map]
  have h1 : ((fun e => match e with | Ev.cmd c _ => some c | _ => none)
        ∘ (fun p : Nat × String => Ev.cmd p.2 (g p)))
      = some ∘ Prod.snd := rfl
  rw [h1, List.filterMap_eq_map, List.enum_map_snd]

theorem cmdsOf_joinEvs (resps : Nat → String) (k : Nat) :
    cmdsOf (joinAttemptEvs resps k) = List.replicate (k + 1) "mac join otaa" := by
  unfold joinAttemptEvs
  have h : ∀ l : List Nat,
      cmdsOf (l.flatMap
        (fun i => [Ev.cmd "mac join otaa" (pyStrip (resps i)), Ev.pause 2]))
        = List.replicate l.length "mac join otaa" := by
    intro l
    induction l with
    | nil => rfl
    | cons a l ihl =>
      simp [cmdsOf, List.filterMap_cons, List.replicate] at ihl ⊢
      exact ihl
  rw [h, List.length_range]

theorem chanCmds_eq :
    chanCmds = ["mac set ch dcycle 0 1", "mac set ch status 0 on",
                "mac set ch dcycle 1 1", "mac set ch status 1 on",
                "mac set ch dcycle 2 1", "mac set ch status 2 on"] := by
  decide

/-- C5 counterexample: on a fully successful run, the commands issued before
the first join attempt are not the 11 commands of the claim (4 set, 6
channel, 1 save): the run starts with the extra sys reset command, issuing
12 commands before any join attempt. -/
theorem claim_C5_counterexample :
    ((cmdsOf (((lora_setup devOk 7 1).getD ([], false)).1)).takeWhile
        (fun c => c != "mac join otaa"))
      ≠ ["mac set appkey " ++ APPKEY, "mac set appeui " ++ JOINEUI,
         "mac set deveui " ++ DEVEUI, "mac set dr 5",
         "mac set ch dcycle 0 1", "mac set ch status 0 on",
         "mac set ch dcycle 1 1", "mac set ch status 1 on",
         "mac set ch dcycle 2 1", "mac set ch status 2 on", "mac save"]
    ∧ ((cmdsOf (((lora_setup devOk 7 1).getD ([], false)).1)).takeWhile
        (fun c => c != "mac join otaa"))
      = "sys reset" ::
        ["mac set appkey " ++ APPKEY, "mac set appeui " ++ JOINEUI,
         "mac set deveui " ++ DEVEUI, "mac set dr 5",
         "mac set ch dcycle 0 1", "mac set ch status 0 on",
         "mac set ch dcycle 1 1", "mac set ch status 1 on",
         "mac set ch dcycle 2 1", "mac set ch status 2 on", "mac save"] := by
  refine ⟨by decide, by decide⟩

/-- C5 as amended: on every run of the join machine the command sequence
issued before any join attempt is exactly one reset command followed by the
4 set commands (appkey, appeui, deveui, dr, in that order), then the 6
channel commands (duty-cycle then status for channels 0, 1, 2 in order),
then 1 save command, and the remaining commands of the run are the join
attempts. -/
theorem claim_C5 (d : LoraDev) (sf : Int) (fuel k : Nat)
    (h1 : firstOkAt d.joinResps k = true) (h2 : k < fuel) :
    ∃ evs b, lora_setup d sf fuel = some (evs, b) ∧
      cmdsOf evs =
        (["sys reset"] ++
         ["mac set appkey " ++ APPKEY, "mac set appeui " ++ JOINEUI,
          "mac set deveui " ++ DEVEUI,
          "mac set dr " ++ toString (data_rate sf)] ++
         ["mac set ch dcycle 0 1", "mac set ch status 0 on",
          "mac set ch dcycle 1 1", "mac set ch status 1 on",
          "mac set ch dcycle 2 1", "mac set ch status 2 on"] ++
         ["mac save"]) ++ List.replicate (k + 1) "mac join otaa" := by
  obtain ⟨hall, hk⟩ := (firstOkAt_iff d.joinResps k).mp h1
  refine ⟨preEvents d sf ++ joinAttemptEvs d.joinResps k ++
            [Ev.pause 2, Ev.line d.acceptRaw],
          pyStrip d.acceptRaw == "accepted", ?_, ?_⟩
  · unfold lora_setup
    rw [joinLoop_spec k d.joinResps fuel hall hk h2]
  · rw [cmdsOf_append, cmdsOf_append]
    unfold preEvents
    rw [cmdsOf_enum]
    have htail : cmdsOf [Ev.pause 2, Ev.line d.acceptRaw] = [] := rfl
    rw [cmdsOf_joinEvs, htail, List.append_nil]
    unfold preJoinCmds
    rw [chanCmds_eq]
    simp

/-- C5 witness: the amended sequence on the fully successful device. -/
theorem claim_C5_witness :
    firstOkAt devOk.joinResps 0 = true ∧ 0 < 1 ∧
      (∃ evs b, lora_setup devOk 7 1 = some (evs, b) ∧
        cmdsOf evs =
          (["sys reset"] ++
           ["mac set appkey " ++ APPKEY, "mac set appeui " ++ JOINEUI,
            "mac set deveui " ++ DEVEUI,
            "mac set dr " ++ toString (data_rate 7)] ++
           ["mac set ch dcycle 0 1", "mac set ch status 0 on",
            "mac set ch dcycle 1 1", "mac set ch status 1 on",
            "mac set ch dcycle 2 1", "mac set ch status 2 on"] ++
           ["mac save"]) ++ List.replicate (0 + 1) "mac join otaa") :=
  ⟨by decide, by decide, claim_C5 devOk 7 1 0 (by decide) (by decide)⟩

/-- C6 counterexample: on a follow-up line whose fields are separated by
tabs, the code extracts decoded_response.split(" ")[-1], which is the whole
line, not the last whitespace-delimited token a1b2c3 required by the claim
(the line contains the downlink marker and differs from that token). -/
theorem claim_C6_counterexample :
    innerStep "ok" readsTab = StepOutcome.downlink tabLine tabLine
    ∧ pyIn "mac_rx" tabLine = true
    ∧ lastWsToken tabLine = "a1b2c3"
    ∧ tabLine ≠ "a1b2c3" := by
  refine ⟨by decide, by decide, by decide, by decide⟩

/-- C6 as amended: when the follow-up line after an acknowledged uplink
contains the downlink marker mac_rx, the extracted downlink payload is the
last single-space-delimited field of the stripped line (Python
split(" ")[-1], which on space-separated lines is the last
whitespace-delimited token); in particular for the line mac_rx 1 a1b2c3 the
extracted field is exactly a1b2c3; a follow-up line not containing the
marker is discarded without extraction. -/
theorem claim_C6 :
    (∀ (resp : String) (reads : Nat → Option String) (raw : String),
      pyIn "ok" (pyStrip resp) = true →
      (pollLoop reads).1 = some raw →
      (pyIn "mac_rx" (pyStrip raw) = true →
        innerStep resp reads
          = StepOutcome.downlink (pyStrip raw) (lastToken (pyStrip raw)))
      ∧ (pyIn "mac_rx" (pyStrip raw) = false →
        innerStep resp reads = StepOutcome.noDownlink (pyStrip raw)))
    ∧ lastToken (pyStrip "mac_rx 1 a1b2c3") = "a1b2c3" := by
  constructor
  · intro resp reads raw hok hpoll
    constructor
    · intro hmr
      unfold innerStep
      rw [hok, hpoll]
      simp [hmr]
    · intro hmr
      unfold innerStep
      rw [hok, hpoll]
      simp [hmr]
  · decide

/-- C6 witness: the amended extraction on the spec's own example line. -/
theorem claim_C6_witness :
    pyIn "ok" (pyStrip "ok") = true
    ∧ (pollLoop readsRx).1 = some "mac_rx 1 a1b2c3"
    ∧ pyIn "mac_rx" (pyStrip "mac_rx 1 a1b2c3") = true
    ∧ innerStep "ok" readsRx
        = StepOutcome.downlink (pyStrip "mac_rx 1 a1b2c3")
            (lastToken (pyStrip "mac_rx 1 a1b2c3")) :=
  ⟨by decide, by decide, by decide,
   (claim_C6.1 "ok" readsRx "mac_rx 1 a1b2c3" (by decide) (by decide)).1 (by decide)⟩

theorem pollGo_snd_le (reads : Nat → Option String) :
    ∀ (rem : Nat) (ret : Option String) (tries : Nat),
      (pollGo reads ret tries rem).2 ≤ tries + rem := by
  intro rem
  induction rem with
  | zero =>
    intro ret tries
    cases ret <;> simp [pollGo]
  | succ rem ih =>
    intro ret tries
    cases ret with
    | none =>
      have h := ih (reads (tries + 1)) (tries + 1)
      calc (pollGo reads none tries (rem + 1)).2
          = (pollGo reads (reads (tries + 1)) (tries + 1) rem).2 := rfl
        _ ≤ tries + 1 + rem := h
        _ ≤ tries + (rem + 1) := by omega
    | some s => simp [pollGo]

theorem pollGo_all_none (reads : Nat → Option String)
    (h : ∀ n, n ≤ 5 → reads n = none) :
    ∀ (rem tries : Nat), tries + rem ≤ 5 →
      pollGo reads none tries rem = (none, tries + rem) := by
  intro rem
  induction rem with
  | zero => intro tries hle; rfl
  | succ rem ih =>
    intro tries hle
    have hr : reads (tries + 1) = none := h (tries + 1) (by omega)
    calc pollGo reads none tries (rem + 1)
        = pollGo reads (reads (tries + 1)) (tries + 1) rem := rfl
      _ = pollGo reads none (tries + 1) rem := by rw [hr]
      _ = (none, tries + 1 + rem) := ih (tries + 1) (by omega)
      _ = (none, tries + (rem + 1)) := by rw [Nat.add_assoc, Nat.add_comm 1 rem]

/-- C7: after an acknowledged uplink, the retry loop polling for the
follow-up line runs at most 5 spaced attempts (after the initial read), and
when no line arrives on any read of the poll phase the iteration terminates
with outcome noResponse, which adds exactly 1 to error_counts. -/
theorem claim_C7 (resp : String) (reads : Nat → Option String)
    (hok : pyIn "ok" (pyStrip resp) = true) :
    (pollLoop reads).2 ≤ 5
    ∧ (((List.range 6).all (fun n => (reads n).isNone)) = true →
        innerStep resp reads = StepOutcome.noResponse
        ∧ errDelta (innerStep resp reads) = 1) := by
  constructor
  · exact pollGo_snd_le reads 5 (reads 0) 0
  · intro hnone
    have hn : ∀ n, n ≤ 5 → reads n = none := by
      intro n hle
      have := List.all_eq_true.mp hnone n (List.mem_range.mpr (by omega))
      exact Option.isNone_iff_eq_none.mp this
    have hpoll : (pollLoop reads).1 = none := by
      unfold pollLoop
      rw [hn 0 (by omega), pollGo_all_none reads hn 5 0 (by omega)]
    have hstep : innerStep resp reads = StepOutcome.noResponse := by
      unfold innerStep
      rw [hok, hpoll]
      simp
    exact ⟨hstep, by rw [hstep]; rfl⟩

/-- C7 witness: an acknowledged uplink with every read of the poll phase
empty. -/
theorem claim_C7_witness :
    pyIn "ok" (pyStrip "ok") = true
    ∧ ((pollLoop readsNone).2 ≤ 5
       ∧ (((List.range 6).all (fun n => (readsNone n).isNone)) = true →
           innerStep "ok" readsNone = StepOutcome.noResponse
           ∧ errDelta (innerStep "ok" readsNone) = 1)) :=
  ⟨by decide, claim_C7 "ok" readsNone (by decide)⟩

/-- C1: the inner transmit loop exits back to the join machine (full
reprovisioning) exactly when error_counts exceeds 5 and never earlier; a
session entered after a successful join carries error_counts equal to the
number of failed iterations so far (ecSeq) as long as it has not exceeded 5;
and the loop exit happens exactly at an iteration that fails and brings the
failure count to exactly 6 — the 6th counted failure. -/
theorem claim_C1 :
    (∀ (d : MainDev) (t ec : Nat), mainRun d t = MPhase.Transmit ec →
      (mainRun d (t + 1) = MPhase.Joining ↔ 5 < ec))
    ∧ (∀ (d : MainDev) (t0 n : Nat), d.joinOk t0 = true →
        mainRun d t0 = MPhase.Joining →
        (∀ m, m < n → ecSeq (sessionDev d t0) m ≤ 5) →
        mainRun d (t0 + 1 + n) = MPhase.Transmit (ecSeq (sessionDev d t0) n))
    ∧ (∀ (dev : Nat → String × (Nat → Option String)) (n : Nat),
        (ecSeq dev n ≤ 5 ∧ 5 < ecSeq dev (n + 1)) ↔
          (errDelta (innerStep (dev n).1 (dev n).2) = 1 ∧ ecSeq dev (n + 1) = 6)) := by
  refine ⟨?_, ?_, ?_⟩
  · intro d t ec h
    have hs : mainRun d (t + 1) = mainStep d t (mainRun d t) := rfl
    rw [hs, h]
    by_cases h5 : ec ≤ 5
    · simp [mainStep, h5]
    · simp [mainStep, h5]
      omega
  · intro d t0 n hj h0 hle
    induction n with
    | zero =>
      have hs : mainRun d (t0 + 1) = mainStep d t0 (mainRun d t0) := rfl
      rw [Nat.add_zero, hs, h0]
      simp [mainStep, hj, ecSeq]
    | succ n ihn =>
      have hrun : mainRun d (t0 + 1 + n) = MPhase.Transmit (ecSeq (sessionDev d t0) n) :=
        ihn (fun m hm => hle m (by omega))
      have hs : mainRun d (t0 + 1 + (n + 1)) = mainStep d (t0 + 1 + n) (mainRun d (t0 + 1 + n)) := rfl
      rw [hs, hrun]
      have h5 : ecSeq (sessionDev d t0) n ≤ 5 := hle n (by omega)
      simp [mainStep, h5]
      rfl
  · intro dev n
    have hd : errDelta (innerStep (dev n).1 (dev n).2) ≤ 1 :=
      errDelta_le_one _
    have hseq : ecSeq dev (n + 1)
        = ecSeq dev n + errDelta (innerStep (dev n).1 (dev n).2) := rfl
    omega

/-- C1 witness: a device where the join succeeds at step 0 and the first
transmit iteration runs. -/
theorem claim_C1_witness :
    mainRun dC 1 = MPhase.Transmit 0 ∧ (mainRun dC 2 = MPhase.Joining ↔ 5 < 0) :=
  ⟨by decide, claim_C1.1 dC 1 0 (by decide)⟩

/-- C9: at the start of every inner transmit-loop session — whenever main
moves from the join phase into the transmit phase, i.e. immediately after a
successful (re)join and before any uplink attempt — error_counts equals 0. -/
theorem claim_C9 (d : MainDev) (t ec : Nat)
    (h1 : mainRun d t = MPhase.Joining)
    (h2 : mainRun d (t + 1) = MPhase.Transmit ec) : ec = 0 := by
  have hs : mainRun d (t + 1) = mainStep d t (mainRun d t) := rfl
  rw [hs, h1] at h2
  by_cases hj : d.joinOk t
  · simp [mainStep, hj] at h2
    omega
  · simp [mainStep, hj] at h2

/-- C9 witness: the session entered after the join that succeeds at step
0. -/
theorem claim_C9_witness :
    mainRun dC 0 = MPhase.Joining ∧ mainRun dC 1 = MPhase.Transmit 0
    ∧ (0 : Nat) = 0 :=
  ⟨by decide, by decide, claim_C9 dC 0 0 (by decide) (by decide)⟩

/-- C10: within a single inner transmit-loop session error_counts is
monotonically non-decreasing; an iteration whose outcome is a successful
acknowledged uplink — a follow-up line with or without the downlink marker —
adds 0, leaving error_counts unchanged rather than resetting it. -/
theorem claim_C10 :
    (∀ (dev : Nat → String × (Nat → Option String)) (m n : Nat),
      m ≤ n → ecSeq dev m ≤ ecSeq dev n)
    ∧ (∀ (dev : Nat → String × (Nat → Option String)) (n : Nat),
        errDelta (innerStep (dev n).1 (dev n).2) = 0 →
        ecSeq dev (n + 1) = ecSeq dev n)
    ∧ (∀ (resp : String) (reads : Nat → Option String) (dec pay : String),
        innerStep resp reads = StepOutcome.downlink dec pay
          ∨ innerStep resp reads = StepOutcome.noDownlink dec →
        errDelta (innerStep resp reads) = 0) := by
  refine ⟨?_, ?_, ?_⟩
  · intro dev m n hmn
    induction n with
    | zero =>
      have hm : m = 0 := Nat.le_zero.mp hmn
      rw [hm]
    | succ n ihn =>
      rcases Nat.le_succ_iff.mp hmn with h | h
      · calc ecSeq dev m ≤ ecSeq dev n := ihn h
          _ ≤ ecSeq dev n + errDelta (innerStep (dev n).1 (dev n).2) :=
              Nat.le_add_right _ _
          _ = ecSeq dev (n + 1) := rfl
      · rw [h]
  · intro dev n h
    have hseq : ecSeq dev (n + 1)
        = ecSeq dev n + errDelta (innerStep (dev n).1 (dev n).2) := rfl
    rw [hseq, h, Nat.add_zero]
  · intro resp reads dec pay h
    rcases h with h | h <;> rw [h] <;> rfl

/-- C10 witness: one failed iteration on the no-follow-up device, from 0 to
1 iterations. -/
theorem claim_C10_witness : (0 : Nat) ≤ 1 ∧ ecSeq devS 0 ≤ ecSeq devS 1 :=
  ⟨by decide, claim_C10.1 devS 0 1 (by decide)⟩
